import Mathlib

/-!
Verification development for the gpu_claim reservation daemon.

The definitions below are a shallow embedding of the daemon found in
src/server/server.cpp, src/server/client.cpp, src/server/gpu_info.cpp and
src/protocol.h.  Pure data is translated structure-for-structure; the
event-driven reactor is modelled as an explicit step function over the
daemon state, with the OS inputs (telemetry samples, process liveness,
the maintenance sentinel file) supplied through an environment record.
Timestamps of std::chrono::steady_clock (resp. system_clock) are modelled
as integer nanoseconds (resp. an opaque integer), which is enough for the
duration comparisons the code performs.
-/

namespace GpuClaim

/-- Telemetry process record, from struct Process in protocol.h
(int uid = 0; int pid = 0; uint64_t memory = 0). -/
structure Process where
  uid : Int := 0
  pid : Int := 0
  memory : Nat := 0
deriving Repr, DecidableEq

instance : Inhabited Process := ⟨{}⟩

/-- GPU card record, from struct Card in protocol.h.  Field defaults mirror
the C++ member initializers; a default constructed std::chrono time_point
is the clock epoch, modelled as 0. -/
structure Card where
  index : Nat := 0
  minorID : Nat := 0
  name : String := ""
  uuid : String := ""
  computeUsagePercent : Nat := 0
  memoryTotal : Nat := 0
  memoryUsage : Nat := 0
  temperatureCelsius : Nat := 0
  reservedByUID : Int := 0
  clientPIDs : List Int := []
  processes : List Process := []
  lastUsageTime : Int := 0
  lockedUntilUpdate : Bool := false
deriving Repr, DecidableEq

instance : Inhabited Card := ⟨{}⟩

/-- Pending claim, from struct Job in protocol.h.  The C++ struct also
carries a float priority field that no code path of the daemon ever reads
(the queue is strict FIFO); floating point is not modelled here. -/
structure Job where
  uid : Int := 0
  pid : Int := 0
  numGPUs : Nat := 0
  submissionTime : Int := 0
deriving Repr, DecidableEq

instance : Inhabited Job := ⟨{}⟩

/-- Process-wide daemon state, from struct ServerStatus in protocol.h. -/
structure ServerStatus where
  cards : List Card := []
  queue : List Job := []
  maintenance : Bool := false
deriving Repr, DecidableEq

/-- constexpr std::size_t gpuLimitPerUser = 8 (protocol.h). -/
def gpuLimitPerUser : Nat := 8

/-- Request union (protocol.h): StatusRequest, ClaimRequest, CoRunRequest,
ReleaseRequest.  Card indices on the wire are uint32, modelled as Nat. -/
inductive Request where
  | statusReq : Request
  | claimReq (numGPUs : Nat) (wait : Bool) : Request
  | coRunReq (gpus : List Nat) : Request
  | releaseReq (gpus : List Nat) : Request
deriving Repr, DecidableEq

/-- Responses sent back on the client socket: StatusResponse,
ClaimResponse{claimedCards, error} and ReleaseResponse{errors}. -/
inductive Response where
  | status (cards : List Card) (queue : List Job) (maintenance : Bool) : Response
  | claimResp (claimedCards : List Card) (error : String) : Response
  | releaseResp (errors : String) : Response
deriving Repr, DecidableEq

/-- Connected client, from struct Client in src/server/client.h.  The fd
doubles as the identity of the client object (the C++ reactor identifies
clients by object pointer; live clients have pairwise distinct fds). -/
structure Client where
  fd : Nat := 0
  connectTime : Int := 0
  uid : Int := -1
  pid : Int := -1
deriving Repr, DecidableEq

/-- Result of Client::communicate, from Client::Action in client.h. -/
inductive Action where
  | keep : Action
  | delete : Action
  | enqueueJob (job : Job) : Action
  | coRunCards (cards : List Nat) : Action
  | releaseCards (cards : List Nat) : Action
deriving Repr, DecidableEq

/-! ### gpu_info: telemetry refresh (src/server/gpu_info.cpp) -/

namespace gpu_info

/-- One NVML refresh observation for a card: the values gpu_info::update
reads from the library and the OS.  ownerUID is st.st_uid of
/dev/nvidia<minor>; procOwner models stat("/proc/<pid>") and returns none
when the stat fails. -/
structure Sample where
  memTotal : Nat := 0
  memUsed : Nat := 0
  utilGpu : Nat := 0
  temperature : Nat := 0
  minorID : Nat := 0
  ownerUID : Int := 0
  computeProcs : List (Int × Nat) := []
  graphicsProcs : List (Int × Nat) := []
  procOwner : Int → Option Int := fun _ => none

/-- The compute-process loop of gpu_info::update: each reported process is
kept with the owner uid of /proc/<pid>; a failed stat pops the entry. -/
def computeList (s : Sample) : List Process :=
  s.computeProcs.filterMap fun pm =>
    (s.procOwner pm.1).map fun u => { uid := u, pid := pm.1, memory := pm.2 }

/-- One step of the graphics-process loop of gpu_info::update.  When the
pid is not yet present a default-constructed Process is inserted at the
end; then a fresh entry is appended (memory starts at 0 and accumulates
the reported usage) and removed again if the /proc stat fails. -/
def graphicsStep (s : Sample) (procs : List Process) (pm : Int × Nat) : List Process :=
  let procs' := if procs.any fun p => p.pid == pm.1 then procs else procs ++ [{}]
  match s.procOwner pm.1 with
  | none => procs'
  | some u => procs' ++ [{ uid := u, pid := pm.1, memory := pm.2 }]

/-- gpu_info::update(card, now): refresh identity and usage fields, take
reservedByUID from the current owner of the device node, rebuild the
process list, stamp lastUsageTime when processes are present, and clear
lockedUntilUpdate.  (The chmod-narrowing side effect touches only the
device node, not the card record.) -/
def update (card : Card) (s : Sample) (now : Int) : Card :=
  let procs := s.graphicsProcs.foldl (graphicsStep s) (computeList s)
  { card with
    memoryTotal := s.memTotal
    memoryUsage := s.memUsed
    computeUsagePercent := s.utilGpu
    temperatureCelsius := s.temperature
    minorID := s.minorID
    reservedByUID := s.ownerUID
    processes := procs
    lastUsageTime := if procs.isEmpty then card.lastUsageTime else now
    lockedUntilUpdate := false }

end gpu_info

/-! ### Card ownership transitions (src/server/server.cpp) -/

/-- claim(card, uid, gid, pid) from server.cpp: chown the device node, set
reservedByUID, set clientPIDs to the singleton {pid}, stamp lastUsageTime;
when uid == 0 (release) additionally mark lockedUntilUpdate.  The C++
guard `if(uid < 0) throw` is unreachable from the modelled call sites:
release passes 0 and the admission pass passes a job uid that originated
from an authenticated client (uid >= 0).  The gid argument only feeds the
chown and is omitted. -/
def claim (card : Card) (uid : Int) (pid : Int) (now : Int) : Card :=
  let card := { card with
    reservedByUID := uid
    clientPIDs := [pid]
    lastUsageTime := now }
  if uid == 0 then { card with lockedUntilUpdate := true } else card

/-- release(card) from server.cpp: claim(card, 0, 0), which leaves the
default argument pid = -1 in place. -/
def release (card : Card) (now : Int) : Card :=
  claim card 0 (-1) now

/-- releaseFromClient(card, clientPID) from server.cpp: std::erase the pid
from clientPIDs and release the card when both the telemetry process set
and the client pid set are empty. -/
def releaseFromClient (card : Card) (clientPID : Int) (now : Int) : Card :=
  let card := { card with clientPIDs := card.clientPIDs.filter fun p => !(p == clientPID) }
  if card.processes = [] ∧ card.clientPIDs = [] then release card now else card

/-! ### Client request handling (src/server/client.cpp) -/

/-- The per-index validation loop of the CoRunRequest handler: the first
index that is out of range or not reserved by the caller's uid produces
the error reply; none means every index passed. -/
def coRunCheck (cards : List Card) (uid : Int) : List Nat → Option String
  | [] => none
  | idx :: rest =>
    if idx ≥ cards.length then some "Invalid GPU number"
    else if (cards.getD idx default).reservedByUID ≠ uid then
      some ("Card " ++ toString idx ++ " is not reserved by you")
    else coRunCheck cards uid rest

/-- The per-index body of the ReleaseRequest handler loop: the produced
error line (empty when every check passes) and the produced entry of the
ReleaseCards action (the card's index field, when every check passes). -/
def releaseLine (cards : List Card) (uid pid : Int) (idx : Nat) : String × List Nat :=
  if idx < cards.length then
    let card := cards.getD idx default
    if card.reservedByUID ≠ uid then
      ("Card " ++ toString idx ++ " is not reserved by user\n", [])
    else if pid ∉ card.clientPIDs then
      ("Card " ++ toString idx ++ " is not reserved by your PID\n", [])
    else if card.clientPIDs.length = 1 then
      match card.processes.find? (fun proc => proc.uid == uid) with
      | some proc =>
        ("Card " ++ toString idx ++ " is still in use. Maybe you want to kill the process with PID "
          ++ toString proc.pid ++ "?\n", [])
      | none => ("", [card.index])
    else ("", [card.index])
  else ("Invalid card index " ++ toString idx ++ "\n", [])

/-- The ReleaseRequest handler loop: error lines accumulate in request
order into one string, passing cards accumulate into the action list. -/
def releaseScan (cards : List Card) (uid pid : Int) : List Nat → String × List Nat
  | [] => ("", [])
  | idx :: rest =>
    let line := releaseLine cards uid pid idx
    let tail := releaseScan cards uid pid rest
    (line.1 ++ tail.1, line.2 ++ tail.2)

/-- Client::communicate (src/server/client.cpp).  The req argument is the
parsed request; none stands for the paths that yield no request (peer
closed, read error, unparsable record), all of which return Delete
without a reply.  A client whose credential read failed (uid < 0) is also
deleted.  The returned list holds the responses sent on the socket. -/
def communicate (client : Client) (st : ServerStatus) (req : Option Request)
    (nowSys : Int) : List Response × Action :=
  if client.uid < 0 then ([], .delete)
  else match req with
  | none => ([], .delete)
  | some .statusReq =>
    ([.status st.cards st.queue st.maintenance], .keep)
  | some (.claimReq numGPUs _wait) =>
    if numGPUs > gpuLimitPerUser then
      ([.claimResp [] "Your requested GPU count is over the per-user limit."], .delete)
    else
      ([], .enqueueJob { uid := client.uid, pid := client.pid, numGPUs := numGPUs,
                         submissionTime := nowSys })
  | some (.coRunReq gpus) =>
    match coRunCheck st.cards client.uid gpus with
    | some msg => ([.claimResp [] msg], .delete)
    | none =>
      ([.claimResp (gpus.map fun c => st.cards.getD c default) ""], .coRunCards gpus)
  | some (.releaseReq gpus) =>
    let sc := releaseScan st.cards client.uid client.pid gpus
    ([.releaseResp sc.1], if sc.1 = "" then .releaseCards sc.2 else .keep)

/-! ### The periodic tick and admission pass (src/server/server.cpp) -/

/-- Environment supplied by the OS on a tick: the telemetry sample for
each card index, process liveness (kill(pid, 0) == 0), and whether the
maintenance sentinel /var/run/gpu_claim_maintenance exists. -/
structure Env where
  sample : Nat → gpu_info.Sample
  alive : Int → Bool
  maintenanceFile : Bool

/-- steady_clock nanoseconds in one minute, the idle threshold `1min`. -/
def oneMinute : Int := 60000000000

/-- The dead-client probe of the periodicUpdate loop: when telemetry
shows no process but client pids remain, collect the pids whose process
no longer exists and releaseFromClient each of them. -/
def tickLiveness (env : Env) (now : Int) (c : Card) : Card :=
  if c.processes = [] ∧ c.clientPIDs ≠ [] then
    (c.clientPIDs.filter fun p => !(env.alive p)).foldl
      (fun c p => releaseFromClient c p now) c
  else c

/-- The idle check of the periodicUpdate loop: a reserved card unused for
more than one minute is forcibly released. -/
def tickIdle (now : Int) (c : Card) : Card :=
  if c.reservedByUID ≠ 0 ∧ now - c.lastUsageTime > oneMinute then release c now else c

/-- The per-card body of the periodicUpdate loop: telemetry refresh, the
dead-client probe, then the one-minute idle forced release. -/
def tickCard (env : Env) (now : Int) (card : Card) : Card :=
  tickIdle now (tickLiveness env now (gpu_info.update card (env.sample card.index) now))

def maintenanceMsg : String :=
  "Server is undergoing maintenance and will not accept new jobs."

def limitMsg : String := "GPU per-user limit is reached"

/-- A card is eligible for allocation when it is unreserved, not locked
until the next telemetry update, and telemetry shows no process on it. -/
def cardFree (c : Card) : Prop :=
  c.reservedByUID = 0 ∧ c.lockedUntilUpdate = false ∧ c.processes = []

instance : DecidablePred cardFree := fun c => by unfold cardFree; infer_instance

/-- The freeCards vector of the admission pass: indices of free cards in
ascending order. -/
def freeIdx (cards : List Card) : List Nat :=
  (List.range cards.length).filter fun i => decide (cardFree (cards.getD i default))

/-- The grant loop of the admission pass: claim each listed card index for
the job's uid/pid and collect the claimed card records (read back after
the claim) for the reply. -/
def grantCards (cards : List Card) : List Nat → Int → Int → Int → List Card × List Card
  | [], _, _, _ => (cards, [])
  | i :: rest, uid, pid, now =>
    let c := claim (cards.getD i default) uid pid now
    let out := grantCards (cards.set i c) rest uid pid now
    (out.1, c :: out.2)

/-- The job-queue loop of periodicUpdate.  Replies are recorded as
(client pid, response) pairs.  none models the
`throw std::logic_error{"Job without client"}` branch when a queued job's
pid matches no connected client. -/
def admissionLoop (clients : List Client) (m : Bool) (now : Int) :
    List Card → List Job → Option (List Card × List Job × List (Int × Response))
  | cards, [] => some (cards, [], [])
  | cards, job :: rest =>
    match clients.find? (fun c => c.pid == job.pid) with
    | none => none
    | some _client =>
      if m then
        match admissionLoop clients m now cards rest with
        | none => none
        | some (cs, q, rs) => some (cs, q, (job.pid, .claimResp [] maintenanceMsg) :: rs)
      else if cards.countP (fun c => c.reservedByUID == job.uid) + job.numGPUs
          > gpuLimitPerUser then
        match admissionLoop clients m now cards rest with
        | none => none
        | some (cs, q, rs) => some (cs, q, (job.pid, .claimResp [] limitMsg) :: rs)
      else if job.numGPUs > (freeIdx cards).length then
        some (cards, job :: rest, [])
      else
        let g := grantCards cards ((freeIdx cards).take job.numGPUs) job.uid job.pid now
        match admissionLoop clients m now g.1 rest with
        | none => none
        | some (cs, q, rs) => some (cs, q, (job.pid, .claimResp g.2 "") :: rs)

/-- periodicUpdate() from server.cpp: refresh and reconcile every card,
re-read the maintenance sentinel, then run the admission pass over the)
job queue. -/
def periodicUpdate (env : Env) (now : Int) (clients : List Client) (st : ServerStatus) :
    Option (ServerStatus × List (Int × Response)) :=
  let cards := st.cards.map (tickCard env now)
  let maint := env.maintenanceFile
  match admissionLoop clients maint now cards st.queue with
  | none => none
  | some (cards', queue', rs) =>
    some ({ cards := cards', queue := queue', maintenance := maint }, rs)

/-! ### The reactor (main() of src/server/server.cpp) -/

/-- One readiness notification delivered by epoll_wait: a connection on
the listening socket, the periodic timer, or data from a client socket
(identified by its fd; req = none models EOF / read error / parse
failure as in communicate). -/
inductive Event where
  | accept (c : Client)
  | tick
  | clientMsg (fd : Nat) (req : Option Request)

/-- Whole reactor state: the client registry g_clients plus g_status. -/
structure DaemonState where
  clients : List Client := []
  status : ServerStatus := {}
deriving Repr, DecidableEq

/-- The CoRunCards visitor of main(): append the requesting client's pid
to each listed card's clientPIDs. -/
def applyCoRun (cards : List Card) (idxs : List Nat) (pid : Int) : List Card :=
  idxs.foldl
    (fun cs i =>
      let c := cs.getD i default
      cs.set i { c with clientPIDs := c.clientPIDs ++ [pid] })
    cards

/-- The ReleaseCards visitor of main(): releaseFromClient on each listed
card for the requesting client's pid. -/
def applyRelease (cards : List Card) (idxs : List Nat) (pid : Int) (now : Int) : List Card :=
  idxs.foldl (fun cs i => cs.set i (releaseFromClient (cs.getD i default) pid now)) cards

/-- One event of the epoll loop in main().  The accumulator carries the
state, the deleteList (client fds queued for deletion) and the log of
(pid, response) pairs sent so far; none propagates the Job-without-client
logic error out of periodicUpdate. -/
def handleEvent (env : Env) (now nowSys : Int)
    (acc : DaemonState × List Nat × List (Int × Response)) (ev : Event) :
    Option (DaemonState × List Nat × List (Int × Response)) :=
  let s := acc.1
  let dl := acc.2.1
  let log := acc.2.2
  match ev with
  | .accept c =>
    -- main(): a connect beyond the soft cap of 100 clients is closed at once
    if s.clients.length > 100 then some (s, dl, log)
    else some ({ s with clients := s.clients ++ [c] }, dl, log)
  | .tick =>
    match periodicUpdate env now s.clients s.status with
    | none => none
    | some (st', rs) => some ({ s with status := st' }, dl, log ++ rs)
  | .clientMsg fd req =>
    -- epoll hands back the registered client; an unknown fd cannot occur
    match s.clients.find? (fun c => c.fd == fd) with
    | none => some (s, dl, log)
    | some client =>
      let out := communicate client s.status req nowSys
      let log := log ++ out.1.map fun r => (client.pid, r)
      match out.2 with
      | .keep => some (s, dl, log)
      | .delete => some (s, dl ++ [fd], log)
      | .enqueueJob job =>
        let st := { s.status with queue := s.status.queue ++ [job] }
        match periodicUpdate env now s.clients st with
        | none => none
        | some (st', rs) => some ({ s with status := st' }, dl, log ++ rs)
      | .coRunCards idxs =>
        some ({ s with status :=
          { s.status with cards := applyCoRun s.status.cards idxs client.pid } }, dl, log)
      | .releaseCards idxs =>
        match periodicUpdate env now s.clients s.status with
        | none => none
        | some (st', rs) =>
          some ({ s with status :=
            { st' with cards := applyRelease st'.cards idxs client.pid now } }, dl, log ++ rs)

/-- The inner for loop of the reactor over the events returned by one
epoll_wait call. -/
def handleEvents (env : Env) (now nowSys : Int) :
    DaemonState × List Nat × List (Int × Response) → List Event →
    Option (DaemonState × List Nat × List (Int × Response))
  | acc, [] => some acc
  | acc, ev :: rest =>
    match handleEvent env now nowSys acc ev with
    | none => none
    | some acc' => handleEvents env now nowSys acc' rest

/-- The deleteList processing at the bottom of the reactor loop: for each
queued client, drop its jobs from the queue, releaseFromClient every card
listing its pid, and erase it from the registry. -/
def processDeletions (now : Int) :
    List Client → ServerStatus → List Nat → List Client × ServerStatus
  | clients, st, [] => (clients, st)
  | clients, st, fd :: rest =>
    match clients.find? (fun c => c.fd == fd) with
    | none => processDeletions now clients st rest
    | some client =>
      let st' : ServerStatus :=
        { st with
          queue := st.queue.filter fun job => !(job.pid == client.pid)
          cards := st.cards.map fun card =>
            if client.pid ∈ card.clientPIDs then releaseFromClient card client.pid now
            else card }
      processDeletions now (clients.erase client) st' rest

/-- One full iteration of the reactor: handle every ready event, then run
the client deletion list.  The result pairs the new state with the log of
replies sent during the iteration. -/
def reactorStep (env : Env) (now nowSys : Int) (s : DaemonState) (events : List Event) :
    Option (DaemonState × List (Int × Response)) :=
  match handleEvents env now nowSys (s, [], []) events with
  | none => none
  | some (s', dl, log) =>
    let fin := processDeletions now s'.clients s'.status dl
    some ({ clients := fin.1, status := fin.2 }, log)

/-- Every queued job belongs to a currently connected client. -/
def jobsHaveClients (s : DaemonState) : Prop :=
  ∀ job ∈ s.status.queue, ∃ c ∈ s.clients, c.pid = job.pid

instance (s : DaemonState) : Decidable (jobsHaveClients s) := by
  unfold jobsHaveClients; infer_instance

/-! ### Concrete fixtures used by witnesses and counterexamples -/

/-- A telemetry sample of an idle device: no running process, node owned
by uid u. -/
def idleSample (u : Int) : gpu_info.Sample := { ownerUID := u }

/-- An environment where every device is idle and owned by uid u, every
process is alive, and the maintenance sentinel state is maint. -/
def mkEnv (u : Int) (maint : Bool) : Env :=
  { sample := fun _ => idleSample u, alive := fun _ => true, maintenanceFile := maint }

/-- A card reserved by uid 1001 with one client (pid 100), idle since
time 0. -/
def cardIdle : Card := { index := 0, reservedByUID := 1001, clientPIDs := [100] }

/-- Daemon state holding just cardIdle and no client. -/
def sIdle : DaemonState := { clients := [], status := { cards := [cardIdle] } }

/-- A connected client of uid 1001, pid 100, on fd 1. -/
def clOwner : Client := { fd := 1, connectTime := 0, uid := 1001, pid := 100 }

/-- Daemon state where clOwner is connected and holds cardIdle. -/
def sOwner : DaemonState := { clients := [clOwner], status := { cards := [cardIdle] } }

/-- 61 seconds of steady_clock nanoseconds. -/
def t61 : Int := 61000000000

/-- A client connected at time 0 that never sent a request and has no
queued job: uid 5, pid 77, fd 1. -/
def clStale : Client := { fd := 1, connectTime := 0, uid := 5, pid := 77 }

/-- Daemon state holding only the stale client. -/
def sStale : DaemonState := { clients := [clStale], status := {} }

/-- A pending claim of one GPU by clOwner. -/
def jobOwner : Job := { uid := 1001, pid := 100, numGPUs := 1 }

/-- Server status with one card, clOwner's job queued, and the
maintenance flag already set by an earlier tick. -/
def stMaint : ServerStatus :=
  { cards := [cardIdle], queue := [jobOwner], maintenance := true }

/-- A card reserved by uid 42. -/
def card42 : Card := { index := 0, reservedByUID := 42 }

/-- A connected client of uid 42, pid 9. -/
def cl42 : Client := { fd := 1, connectTime := 0, uid := 42, pid := 9 }

/-- A claim for 8 GPUs by uid 42, which already holds card42. -/
def job42 : Job := { uid := 42, pid := 9, numGPUs := 8 }

/-- A connected client of uid 7, pid 9. -/
def clW7 : Client := { fd := 1, connectTime := 0, uid := 7, pid := 9 }

/-- A claim for one GPU by uid 7 while no card is free. -/
def job71 : Job := { uid := 7, pid := 9, numGPUs := 1 }

/-- A card reserved by uid 7 whose only client is pid 3. -/
def card7 : Card := { index := 0, reservedByUID := 7, clientPIDs := [3] }

/-- A connected client of uid 3, pid 7. -/
def clQ : Client := { fd := 1, connectTime := 0, uid := 3, pid := 7 }

/-- Daemon state where clQ is connected and awaits a queued zero-GPU
claim. -/
def sQ : DaemonState :=
  { clients := [clQ], status := { queue := [{ uid := 3, pid := 7, numGPUs := 0 }] } }

/-- Declarative reading of the four per-card Release checks: the index is
in range, the card is reserved by the caller's uid, the caller's pid is
among the card's clientPIDs, and — when the caller is the last client on
the card — no telemetry process of the caller's uid remains on it. -/
def releasePass (cards : List Card) (uid pid : Int) (idx : Nat) : Prop :=
  idx < cards.length ∧
  (cards.getD idx default).reservedByUID = uid ∧
  pid ∈ (cards.getD idx default).clientPIDs ∧
  ((cards.getD idx default).clientPIDs.length = 1 →
    ∀ proc ∈ (cards.getD idx default).processes, proc.uid ≠ uid)

instance (cards : List Card) (uid pid : Int) (idx : Nat) :
    Decidable (releasePass cards uid pid idx) := by
  unfold releasePass; infer_instance

/-! ## Basic lemmas -/

lemma string_length_zero {s : String} (h : s.length = 0) : s = "" := by
  cases s with
  | mk a =>
    cases a with
    | nil => rfl
    | cons x xs => simp [String.length] at h

lemma string_append_eq_empty {s t : String} : s ++ t = "" ↔ s = "" ∧ t = "" := by
  constructor
  · intro h
    have h1 : (s ++ t).length = 0 := by rw [h]; rfl
    rw [String.length_append] at h1
    exact ⟨string_length_zero (by omega), string_length_zero (by omega)⟩
  · rintro ⟨rfl, rfl⟩; rfl

lemma getD_set_self {α : Type} [Inhabited α] (l : List α) (i : Nat) (a : α)
    (h : i < l.length) : (l.set i a).getD i default = a := by
  simp [List.getD_eq_getElem?_getD, List.getElem?_set_self h]

lemma getD_set_ne {α : Type} [Inhabited α] (l : List α) {i j : Nat} (a : α)
    (h : i ≠ j) : (l.set i a).getD j default = l.getD j default := by
  simp [List.getD_eq_getElem?_getD, List.getElem?_set_ne h]

lemma find?_eq_some_of_mem {α : Type} {p : α → Bool} {l : List α}
    (h : ∃ x ∈ l, p x = true) : ∃ y, l.find? p = some y :=
  Option.isSome_iff_exists.mp (List.find?_isSome.mpr h)

/-! ## Card transition lemmas -/

lemma release_reservedByUID (card : Card) (now : Int) :
    (release card now).reservedByUID = 0 := rfl

lemma releaseFromClient_cases (card : Card) (p now : Int) :
    (releaseFromClient card p now).reservedByUID = 0 ∨
      ((releaseFromClient card p now).reservedByUID = card.reservedByUID ∧
       (releaseFromClient card p now).lastUsageTime = card.lastUsageTime) := by
  unfold releaseFromClient
  dsimp only
  split
  · exact Or.inl rfl
  · exact Or.inr ⟨rfl, rfl⟩

lemma foldl_releaseFromClient_cases (now : Int) (l : List Int) (card : Card) :
    (l.foldl (fun c p => releaseFromClient c p now) card).reservedByUID = 0 ∨
      ((l.foldl (fun c p => releaseFromClient c p now) card).reservedByUID
          = card.reservedByUID ∧
       (l.foldl (fun c p => releaseFromClient c p now) card).lastUsageTime
          = card.lastUsageTime) := by
  induction l generalizing card with
  | nil => exact Or.inr ⟨rfl, rfl⟩
  | cons p rest ih =>
    simp only [List.foldl_cons]
    rcases ih (releaseFromClient card p now) with h | ⟨h1, h2⟩
    · exact Or.inl h
    · rcases releaseFromClient_cases card p now with h0 | ⟨h01, h02⟩
      · exact Or.inl (h1.trans h0)
      · exact Or.inr ⟨h1.trans h01, h2.trans h02⟩

lemma tickLiveness_cases (env : Env) (now : Int) (c : Card) :
    (tickLiveness env now c).reservedByUID = 0 ∨
      ((tickLiveness env now c).reservedByUID = c.reservedByUID ∧
       (tickLiveness env now c).lastUsageTime = c.lastUsageTime) := by
  unfold tickLiveness
  split
  · exact foldl_releaseFromClient_cases now _ c
  · exact Or.inr ⟨rfl, rfl⟩

/-! ## Claim C9 -/

/-- C9: on a periodic tick, a card that after its telemetry refresh is
still reserved (reservedByUID is nonzero) and whose lastUsageTime lies
more than one minute before now ends the per-card pass released
(reservedByUID = 0), regardless of remaining clientPIDs. -/
theorem C9_idle_release (env : Env) (now : Int) (card : Card)
    (h1 : (gpu_info.update card (env.sample card.index) now).reservedByUID ≠ 0)
    (h2 : now - (gpu_info.update card (env.sample card.index) now).lastUsageTime
        > oneMinute) :
    (tickCard env now card).reservedByUID = 0 := by
  unfold tickCard tickIdle
  rcases tickLiveness_cases env now (gpu_info.update card (env.sample card.index) now)
    with h0 | ⟨hr, hl⟩
  · rw [if_neg]
    · exact h0
    · rintro ⟨ha, -⟩; exact ha h0
  · rw [if_pos ⟨by rw [hr]; exact h1, by rw [hl]; exact h2⟩]
    exact release_reservedByUID _ _

/-- Witness for C9: the concrete idle card reserved by uid 1001, 61
seconds after its last usage, is released by the tick. -/
theorem C9_witness : (tickCard (mkEnv 1001 false) t61 cardIdle).reservedByUID = 0 :=
  C9_idle_release (mkEnv 1001 false) t61 cardIdle (by decide) (by decide)

/-! ## Claim C1 -/

/-- C1 (counterexample): a full reactor iteration consisting of one
periodic tick on a card reserved by uid 1001 and idle for 61 seconds ends
with the card released, yet its clientPIDs is the one-element list [-1],
not the empty list — refuting the invariant that reservedByUID = 0 holds
iff clientPIDs is empty after every reactor iteration, and in particular
refuting that the release path leaves clientPIDs empty. -/
theorem C1_counterexample :
    (reactorStep (mkEnv 1001 false) t61 0 sIdle [Event.tick]).map
        (fun r => r.1.status.cards.map fun c => (c.reservedByUID, c.clientPIDs))
      = some [(0, [-1])] ∧ ¬ (([-1] : List Int) = []) := by
  constructor
  · rfl
  · decide

/-- C1 (amended): the release path (claim with uid 0, the default pid
argument -1 left in place) leaves reservedByUID = 0 but sets clientPIDs
to the one-element sentinel list [-1] rather than the empty list, and
marks the card lockedUntilUpdate; hence reservedByUID = 0 does not imply
that clientPIDs is empty. -/
theorem C1_amended_release (card : Card) (now : Int) :
    (release card now).reservedByUID = 0 ∧
    (release card now).clientPIDs = [-1] ∧
    (release card now).lockedUntilUpdate = true :=
  ⟨rfl, rfl, rfl⟩

/-! ## Claim C6 -/

/-- C6 (counterexample): a client accepted at time 0 that is not awaiting
any queue decision (the queue is empty) is still connected after the
periodic tick at time 3 s — more than 2 s after accept — and the whole
reactor iteration leaves the daemon state unchanged: no client is queued
for deletion, refuting the claimed 2-second sweep. -/
theorem C6_counterexample :
    3000000000 - clStale.connectTime > 2000000000 ∧
    sStale.status.queue = [] ∧
    reactorStep (mkEnv 0 false) 3000000000 0 sStale [Event.tick] = some (sStale, []) :=
  ⟨by decide, rfl, rfl⟩

/-- C6 (amended): the current daemon has no age-based sweep at all: a
reactor iteration consisting of one periodic tick never removes or queues
for deletion any client, whatever its connection age or awaiting status;
connectTime is recorded but never read.  Clients are deleted only through
Delete actions produced by request handling. -/
theorem C6_amended_no_sweep (env : Env) (now nowSys : Int) (s : DaemonState)
    (out : DaemonState × List (Int × Response))
    (h : reactorStep env now nowSys s [Event.tick] = some out) :
    out.1.clients = s.clients := by
  cases hp : periodicUpdate env now s.clients s.status with
  | none =>
    simp only [reactorStep, handleEvents, handleEvent, hp] at h
    exact absurd h (by simp)
  | some pr =>
    obtain ⟨st', rs⟩ := pr
    simp only [reactorStep, handleEvents, handleEvent, hp, processDeletions,
      Option.some.injEq] at h
    subst h
    rfl

/-- Witness for C6_amended_no_sweep at the concrete stale-client state:
the tick at 3 s leaves the client registry untouched. -/
theorem C6_witness :
    ((sStale, ([] : List (Int × Response))).1.clients = sStale.clients) :=
  C6_amended_no_sweep (mkEnv 0 false) 3000000000 0 sStale (sStale, []) rfl

/-! ## Claim C7 -/

/-- C7 (counterexample): a StatusRequest from the connected client with
pid 100 is answered with the full card list, queue snapshot and
maintenance flag, but the reactor iteration ends with the client still
connected (the communicate action is Keep, not Delete): the daemon does
not close the connection after a status reply. -/
theorem C7_counterexample :
    reactorStep (mkEnv 0 false) 0 0 sOwner [Event.clientMsg 1 (some Request.statusReq)]
      = some (sOwner, [(100, Response.status [cardIdle] [] false)]) ∧
    (communicate clOwner sOwner.status (some Request.statusReq) 0).2 = Action.keep ∧
    Action.keep ≠ Action.delete :=
  ⟨rfl, rfl, by decide⟩

/-- C7 (amended): for every StatusRequest from an authenticated client,
communicate replies with the full card list, the queue snapshot and the
maintenance flag, and returns Keep — the connection stays open; the
daemon never closes it after a status reply. -/
theorem C7_amended_status_keep (client : Client) (st : ServerStatus) (nowSys : Int)
    (h : 0 ≤ client.uid) :
    communicate client st (some Request.statusReq) nowSys =
      ([Response.status st.cards st.queue st.maintenance], Action.keep) := by
  unfold communicate
  rw [if_neg (not_lt.mpr h)]

/-- Witness for C7_amended_status_keep at a concrete client and state. -/
theorem C7_witness :
    communicate clOwner { cards := [cardIdle] } (some Request.statusReq) 0 =
      ([Response.status [cardIdle] [] false], Action.keep) :=
  C7_amended_status_keep clOwner { cards := [cardIdle] } 0 (by decide)

/-! ## Admission pass lemmas -/

lemma admissionLoop_maintenance (clients : List Client) (now : Int) (cards : List Card)
    (queue : List Job) (hcl : ∀ j ∈ queue, ∃ c ∈ clients, c.pid = j.pid) :
    admissionLoop clients true now cards queue =
      some (cards, [],
        queue.map fun j => (j.pid, Response.claimResp [] maintenanceMsg)) := by
  induction queue with
  | nil => rfl
  | cons job rest ih =>
    obtain ⟨c, hc, hpid⟩ := hcl job (List.mem_cons_self _ _)
    obtain ⟨y, hy⟩ := find?_eq_some_of_mem
      (l := clients) (p := fun c => c.pid == job.pid) ⟨c, hc, by simp [hpid]⟩
    simp only [admissionLoop, hy]
    rw [if_pos trivial, ih fun j hj => hcl j (List.mem_cons_of_mem _ hj)]
    rfl

lemma mem_freeIdx (cards : List Card) (i : Nat) :
    i ∈ freeIdx cards ↔ i < cards.length ∧ cardFree (cards.getD i default) := by
  simp [freeIdx, List.mem_filter, List.mem_range]

lemma freeIdx_sorted (cards : List Card) : List.Pairwise (· < ·) (freeIdx cards) :=
  List.Pairwise.filter _ (List.pairwise_lt_range _)

/-! ## Claim C5 -/

/-- C5: when the maintenance sentinel exists at the start of a tick,
periodicUpdate empties the whole job queue and answers every queued claim
with exactly the string "Server is undergoing maintenance and will not
accept new jobs." (an incoming claim is enqueued before periodicUpdate
runs, so it is covered as a queued claim); the resulting status record
carries maintenance = true, and a StatusRequest is still answered with
the full card list, the queue snapshot and the maintenance flag. -/
theorem C5_maintenance (env : Env) (now : Int) (clients : List Client)
    (st : ServerStatus)
    (hm : env.maintenanceFile = true)
    (hcl : ∀ j ∈ st.queue, ∃ c ∈ clients, c.pid = j.pid) :
    periodicUpdate env now clients st =
      some ({ cards := st.cards.map (tickCard env now), queue := [],
              maintenance := true },
        st.queue.map fun j => (j.pid, Response.claimResp [] maintenanceMsg)) ∧
    (∀ (client : Client) (nowSys : Int), 0 ≤ client.uid →
      communicate client st (some Request.statusReq) nowSys =
        ([Response.status st.cards st.queue st.maintenance], Action.keep)) := by
  constructor
  · simp only [periodicUpdate, hm,
      admissionLoop_maintenance clients now (st.cards.map (tickCard env now)) st.queue hcl]
  · intro client nowSys hu
    unfold communicate
    rw [if_neg (not_lt.mpr hu)]

/-- Witness for C5 at a concrete one-card, one-job state in maintenance. -/
theorem C5_witness :
    periodicUpdate (mkEnv 1001 true) 0 [clOwner] stMaint =
      some ({ cards := [tickCard (mkEnv 1001 true) 0 cardIdle], queue := [],
              maintenance := true },
        [(100, Response.claimResp [] maintenanceMsg)]) ∧
    communicate clOwner stMaint (some Request.statusReq) 0 =
      ([Response.status [cardIdle] [jobOwner] true], Action.keep) := by
  have h := C5_maintenance (mkEnv 1001 true) 0 [clOwner] stMaint rfl (by decide)
  exact ⟨h.1, h.2 clOwner 0 (by decide)⟩

/-! ## Claim C4 -/

/-- C4: in the admission pass (outside maintenance), a job whose uid
already reserves alreadyClaimed cards with alreadyClaimed + numGPUs over
the per-user cap of 8 is answered with exactly the error "GPU per-user
limit is reached", popped from the queue with no residual job, and the
pass continues with the next queued job (the recursion on the rest of
the queue), leaving the cards untouched. -/
theorem C4_per_user_cap (clients : List Client) (now : Int) (cards : List Card)
    (job : Job) (rest : List Job)
    (hclient : ∃ c ∈ clients, c.pid = job.pid)
    (hcap : cards.countP (fun c => c.reservedByUID == job.uid) + job.numGPUs
        > gpuLimitPerUser) :
    gpuLimitPerUser = 8 ∧
    admissionLoop clients false now cards (job :: rest) =
      match admissionLoop clients false now cards rest with
      | none => none
      | some (cs, q, rs) =>
        some (cs, q, (job.pid, Response.claimResp [] limitMsg) :: rs) := by
  refine ⟨rfl, ?_⟩
  obtain ⟨c, hc, hpid⟩ := hclient
  obtain ⟨y, hy⟩ := find?_eq_some_of_mem
    (l := clients) (p := fun c => c.pid == job.pid) ⟨c, hc, by simp [hpid]⟩
  simp only [admissionLoop, hy]
  rw [if_neg (by simp), if_pos hcap]

/-- Witness for C4: uid 42 holds one card and asks for 8 more on an
otherwise empty queue; the job is rejected with the cap error and the
queue drains. -/
theorem C4_witness :
    admissionLoop [cl42] false 0 [card42] [job42] =
      some ([card42], [], [(9, Response.claimResp [] limitMsg)]) := by
  have h := (C4_per_user_cap [cl42] 0 [card42] job42 [] (by decide) (by decide)).2
  simpa using h

/-! ## Claim C3 -/

/-- C3: in the admission pass, for the job at the queue head — given the
pass reaches its feasibility step, i.e. the server is not in maintenance
and the job passes the per-user cap check — the free set is exactly the
indices of cards with reservedByUID = 0, lockedUntilUpdate false and an
empty telemetry process list, enumerated in ascending card-index order;
if the job's numGPUs exceeds the size of the free set the pass stops with
cards and queue unchanged and no reply sent (head-of-line blocking);
otherwise the grant claims exactly the first numGPUs free indices in
ascending order — so a card with lockedUntilUpdate set is never part of a
grant. -/
theorem C3_admission_head (clients : List Client) (now : Int) (cards : List Card)
    (job : Job) (rest : List Job)
    (hclient : ∃ c ∈ clients, c.pid = job.pid)
    (hcap : cards.countP (fun c => c.reservedByUID == job.uid) + job.numGPUs
        ≤ gpuLimitPerUser) :
    (∀ i, i ∈ freeIdx cards ↔ i < cards.length ∧ cardFree (cards.getD i default)) ∧
    List.Pairwise (· < ·) (freeIdx cards) ∧
    (job.numGPUs > (freeIdx cards).length →
      admissionLoop clients false now cards (job :: rest) =
        some (cards, job :: rest, [])) ∧
    (job.numGPUs ≤ (freeIdx cards).length →
      (∀ i ∈ (freeIdx cards).take job.numGPUs,
        (cards.getD i default).lockedUntilUpdate = false) ∧
      admissionLoop clients false now cards (job :: rest) =
        match admissionLoop clients false now
            (grantCards cards ((freeIdx cards).take job.numGPUs) job.uid job.pid now).1
            rest with
        | none => none
        | some (cs, q, rs) =>
          some (cs, q, (job.pid,
            Response.claimResp
              (grantCards cards ((freeIdx cards).take job.numGPUs) job.uid job.pid
                now).2 "") :: rs)) := by
  obtain ⟨c, hc, hpid⟩ := hclient
  obtain ⟨y, hy⟩ := find?_eq_some_of_mem
    (l := clients) (p := fun c => c.pid == job.pid) ⟨c, hc, by simp [hpid]⟩
  refine ⟨mem_freeIdx cards, freeIdx_sorted cards, ?_, ?_⟩
  · intro hfeas
    simp only [admissionLoop, hy]
    rw [if_neg (by simp), if_neg (not_lt.mpr hcap), if_pos hfeas]
  · intro hfeas
    constructor
    · intro i hi
      exact (((mem_freeIdx cards i).mp (List.take_subset _ _ hi)).2).2.1
    · simp only [admissionLoop, hy]
      rw [if_neg (by simp), if_neg (not_lt.mpr hcap), if_neg (not_lt.mpr hfeas)]

/-- Witness for C3: the head-of-line blocking branch at a concrete state
where no card is free and uid 7 asks for one GPU. -/
theorem C3_witness :
    admissionLoop [clW7] false 0 [card42] [job71] = some ([card42], [job71], []) :=
  ((C3_admission_head [clW7] 0 [card42] job71 [] (by decide) (by decide)).2.2.1)
    (by decide)

/-! ## Release handler lemmas -/

lemma append_ne_empty_left {a : String} (ha : a ≠ "") (b : String) : a ++ b ≠ "" :=
  fun h => ha (string_append_eq_empty.mp h).1

lemma release_clientPIDs (card : Card) (now : Int) :
    (release card now).clientPIDs = [-1] := rfl

lemma releaseLine_fst_empty_iff (cards : List Card) (uid pid : Int) (idx : Nat) :
    (releaseLine cards uid pid idx).1 = "" ↔ releasePass cards uid pid idx := by
  unfold releaseLine releasePass
  by_cases h1 : idx < cards.length
  · rw [if_pos h1]
    dsimp only
    by_cases h2 : (cards.getD idx default).reservedByUID ≠ uid
    · rw [if_pos h2]
      exact iff_of_false (append_ne_empty_left (append_ne_empty_left (by decide) _) _)
        fun hp => h2 hp.2.1
    · rw [if_neg h2]
      by_cases h3 : pid ∉ (cards.getD idx default).clientPIDs
      · rw [if_pos h3]
        exact iff_of_false (append_ne_empty_left (append_ne_empty_left (by decide) _) _)
          fun hp => h3 hp.2.2.1
      · rw [if_neg h3]
        by_cases h4 : (cards.getD idx default).clientPIDs.length = 1
        · rw [if_pos h4]
          cases hf : (cards.getD idx default).processes.find? fun proc => proc.uid == uid with
          | some proc =>
            refine iff_of_false
              (append_ne_empty_left (append_ne_empty_left (append_ne_empty_left
                (append_ne_empty_left (by decide) _) _) _) _) fun hp => ?_
            exact hp.2.2.2 h4 proc (List.mem_of_find?_eq_some hf)
              (by have := List.find?_some hf; simpa using this)
          | none =>
            refine iff_of_true rfl ⟨h1, of_not_not h2, of_not_not h3, fun _ proc hproc => ?_⟩
            have := List.find?_eq_none.mp hf proc hproc
            simpa using this
        · rw [if_neg h4]
          exact iff_of_true rfl
            ⟨h1, of_not_not h2, of_not_not h3, fun hl => absurd hl h4⟩
  · rw [if_neg h1]
    exact iff_of_false (append_ne_empty_left (append_ne_empty_left (by decide) _) _)
      fun hp => h1 hp.1

lemma releaseScan_fst_empty_iff (cards : List Card) (uid pid : Int) (gpus : List Nat) :
    (releaseScan cards uid pid gpus).1 = "" ↔
      ∀ idx ∈ gpus, releasePass cards uid pid idx := by
  induction gpus with
  | nil => simp [releaseScan]
  | cons idx rest ih =>
    simp only [releaseScan]
    rw [string_append_eq_empty, releaseLine_fst_empty_iff, ih, List.forall_mem_cons]

lemma releaseLine_of_pass (cards : List Card) (uid pid : Int) (idx : Nat)
    (hidx : ∀ i, i < cards.length → (cards.getD i default).index = i)
    (hp : releasePass cards uid pid idx) :
    releaseLine cards uid pid idx = ("", [idx]) := by
  unfold releaseLine
  rw [if_pos hp.1, if_neg (not_not_intro hp.2.1), if_neg (not_not_intro hp.2.2.1)]
  by_cases h4 : (cards.getD idx default).clientPIDs.length = 1
  · rw [if_pos h4]
    have hf : (cards.getD idx default).processes.find? (fun proc => proc.uid == uid)
        = none :=
      List.find?_eq_none.mpr fun proc hproc => by simpa using hp.2.2.2 h4 proc hproc
    rw [hf, hidx idx hp.1]
  · rw [if_neg h4, hidx idx hp.1]

lemma releaseScan_of_all_pass (cards : List Card) (uid pid : Int) (gpus : List Nat)
    (hidx : ∀ i, i < cards.length → (cards.getD i default).index = i)
    (hall : ∀ idx ∈ gpus, releasePass cards uid pid idx) :
    releaseScan cards uid pid gpus = ("", gpus) := by
  induction gpus with
  | nil => rfl
  | cons idx rest ih =>
    simp only [releaseScan,
      releaseLine_of_pass cards uid pid idx hidx (hall idx (List.mem_cons_self _ _)),
      ih fun j hj => hall j (List.mem_cons_of_mem _ hj)]
    rfl

lemma getD_set {α : Type} [Inhabited α] (l : List α) (i j : Nat) (a : α) :
    (l.set i a).getD j default =
      if i = j ∧ i < l.length then a else l.getD j default := by
  simp only [List.getD_eq_getElem?_getD, List.getElem?_set]
  by_cases h1 : i = j
  · subst h1
    by_cases h2 : i < l.length
    · simp [h2]
    · rw [if_pos rfl, if_neg h2, if_neg (by simp [h2])]
      rw [List.getElem?_eq_none (le_of_not_lt h2)]
  · simp [h1]

lemma not_mem_releaseFromClient_self (card : Card) (pid now : Int) (hpid : pid ≠ -1) :
    pid ∉ (releaseFromClient card pid now).clientPIDs := by
  unfold releaseFromClient
  dsimp only
  split
  · rw [release_clientPIDs]
    simp [hpid]
  · intro hm
    have := (List.mem_filter.mp hm).2
    simp at this

lemma not_mem_releaseFromClient_preserve (card : Card) (pid q now : Int)
    (hpid : pid ≠ -1) (h : pid ∉ card.clientPIDs) :
    pid ∉ (releaseFromClient card q now).clientPIDs := by
  unfold releaseFromClient
  dsimp only
  split
  · rw [release_clientPIDs]
    simp [hpid]
  · intro hm
    exact h (List.mem_of_mem_filter hm)

lemma applyRelease_not_mem_preserve (now : Int) (idxs : List Nat) (cards : List Card)
    (pid : Int) (j : Nat) (hpid : pid ≠ -1)
    (h : pid ∉ (cards.getD j default).clientPIDs) :
    pid ∉ ((applyRelease cards idxs pid now).getD j default).clientPIDs := by
  induction idxs generalizing cards with
  | nil => exact h
  | cons i rest ih =>
    have hstep : applyRelease cards (i :: rest) pid now =
        applyRelease (cards.set i (releaseFromClient (cards.getD i default) pid now))
          rest pid now := rfl
    rw [hstep]
    apply ih
    rw [getD_set]
    split_ifs with hc
    · obtain ⟨rfl, -⟩ := hc
      exact not_mem_releaseFromClient_preserve _ _ _ _ hpid h
    · exact h

lemma applyRelease_not_mem (now : Int) (idxs : List Nat) (cards : List Card)
    (pid : Int) (hpid : pid ≠ -1) (hlen : ∀ j ∈ idxs, j < cards.length) :
    ∀ j ∈ idxs, pid ∉ ((applyRelease cards idxs pid now).getD j default).clientPIDs := by
  induction idxs generalizing cards with
  | nil => intro j hj; cases hj
  | cons i rest ih =>
    intro j hj
    have hstep : applyRelease cards (i :: rest) pid now =
        applyRelease (cards.set i (releaseFromClient (cards.getD i default) pid now))
          rest pid now := rfl
    rw [hstep]
    by_cases hr : j ∈ rest
    · exact ih _ (fun k hk => by
        rw [List.length_set]; exact hlen k (List.mem_cons_of_mem _ hk)) j hr
    · obtain rfl : j = i := (List.mem_cons.mp hj).resolve_right hr
      apply applyRelease_not_mem_preserve _ _ _ _ _ hpid
      rw [getD_set, if_pos ⟨rfl, hlen j (List.mem_cons_self _ _)⟩]
      exact not_mem_releaseFromClient_self _ _ _ hpid

/-! ## Claim C2 -/

/-- C2 (counterexample): a Release{0, 5} request on a one-card daemon
where card 0 passes every per-card check but index 5 is out of range is
answered with the accumulated error line for card 5, yet the caller's
pid 100 is NOT removed from card 0's clientPIDs — the whole reactor
iteration leaves the state unchanged, refuting the claim that passing
cards are released even when other requested cards failed. -/
theorem C2_counterexample :
    reactorStep (mkEnv 0 false) 0 0 sOwner
        [Event.clientMsg 1 (some (Request.releaseReq [0, 5]))] =
      some (sOwner, [(100, Response.releaseResp "Invalid card index 5\n")]) ∧
    releasePass sOwner.status.cards 1001 100 0 ∧
    (100 : Int) ∈ (sOwner.status.cards.getD 0 default).clientPIDs :=
  ⟨rfl, by decide, by decide⟩

/-- C2 (amended): each failing per-card check of a Release request
appends its human-readable line to the error buffer and skips that card
(the buffer is empty exactly when every requested card passes all
checks); the reply always carries the accumulated error string; when any
requested card failed the resulting action is Keep, so no card is
modified at all; only when every requested card passes does the handler
return the ReleaseCards action over the requested indices, whose
application removes the caller's pid from every requested card's
clientPIDs (releasing a card whose clientPIDs and process set become
empty, as coded in releaseFromClient). -/
theorem C2_release_semantics (client : Client) (st : ServerStatus) (gpus : List Nat)
    (nowSys now : Int) (hu : 0 ≤ client.uid) (hpid : client.pid ≠ -1)
    (hidx : ∀ i, i < st.cards.length → (st.cards.getD i default).index = i) :
    ((releaseScan st.cards client.uid client.pid gpus).1 = "" ↔
      ∀ idx ∈ gpus, releasePass st.cards client.uid client.pid idx) ∧
    (communicate client st (some (Request.releaseReq gpus)) nowSys).1 =
      [Response.releaseResp (releaseScan st.cards client.uid client.pid gpus).1] ∧
    (¬ (∀ idx ∈ gpus, releasePass st.cards client.uid client.pid idx) →
      (communicate client st (some (Request.releaseReq gpus)) nowSys).2 = Action.keep) ∧
    ((∀ idx ∈ gpus, releasePass st.cards client.uid client.pid idx) →
      (communicate client st (some (Request.releaseReq gpus)) nowSys).2 =
        Action.releaseCards gpus ∧
      ∀ idx ∈ gpus, client.pid ∉
        ((applyRelease st.cards gpus client.pid now).getD idx default).clientPIDs) := by
  refine ⟨releaseScan_fst_empty_iff _ _ _ _, ?_, ?_, ?_⟩
  · unfold communicate
    rw [if_neg (not_lt.mpr hu)]
  · intro hn
    unfold communicate
    rw [if_neg (not_lt.mpr hu)]
    dsimp only
    rw [if_neg fun he => hn ((releaseScan_fst_empty_iff _ _ _ _).mp he)]
  · intro hall
    refine ⟨?_, applyRelease_not_mem now gpus st.cards client.pid hpid
      (fun j hj => (hall j hj).1)⟩
    unfold communicate
    rw [if_neg (not_lt.mpr hu)]
    dsimp only
    rw [if_pos ((releaseScan_fst_empty_iff _ _ _ _).mpr hall),
      releaseScan_of_all_pass _ _ _ _ hidx hall]

/-- Witness for C2 at a concrete full-success release: clOwner releases
card 0 and its pid disappears from the card. -/
theorem C2_witness :
    (communicate clOwner { cards := [cardIdle] } (some (Request.releaseReq [0])) 0).2 =
      Action.releaseCards [0] ∧
    (100 : Int) ∉ ((applyRelease [cardIdle] [0] 100 5).getD 0 default).clientPIDs := by
  have h := (C2_release_semantics clOwner { cards := [cardIdle] } [0] 0 5 (by decide)
      (by decide) (fun i hi => by
        have hi1 : i < 1 := hi
        have h0 : i = 0 := by omega
        subst h0
        rfl)).2.2.2 (by decide)
  exact ⟨h.1, h.2 0 (by simp)⟩

/-! ## CoRun handler lemmas -/

lemma coRunCheck_none_iff (cards : List Card) (uid : Int) (gpus : List Nat) :
    coRunCheck cards uid gpus = none ↔
      ∀ idx ∈ gpus, idx < cards.length ∧
        (cards.getD idx default).reservedByUID = uid := by
  induction gpus with
  | nil => simp [coRunCheck]
  | cons idx rest ih =>
    simp only [coRunCheck]
    by_cases h1 : idx ≥ cards.length
    · rw [if_pos h1]
      exact iff_of_false (by simp) fun hall =>
        absurd (hall idx (List.mem_cons_self _ _)).1 (not_lt.mpr h1)
    · rw [if_neg h1]
      by_cases h2 : (cards.getD idx default).reservedByUID ≠ uid
      · rw [if_pos h2]
        exact iff_of_false (by simp) fun hall =>
          h2 (hall idx (List.mem_cons_self _ _)).2
      · rw [if_neg h2, ih, List.forall_mem_cons]
        exact ⟨fun h => ⟨⟨lt_of_not_ge h1, of_not_not h2⟩, h⟩, And.right⟩

lemma applyCoRun_mem_preserve (idxs : List Nat) (cards : List Card) (pid : Int)
    (j : Nat) (h : pid ∈ (cards.getD j default).clientPIDs) :
    pid ∈ ((applyCoRun cards idxs pid).getD j default).clientPIDs := by
  induction idxs generalizing cards with
  | nil => exact h
  | cons i rest ih =>
    have hstep : applyCoRun cards (i :: rest) pid =
        applyCoRun (cards.set i
          { cards.getD i default with
            clientPIDs := (cards.getD i default).clientPIDs ++ [pid] }) rest pid := rfl
    rw [hstep]
    apply ih
    rw [getD_set]
    split_ifs with hc
    · obtain ⟨rfl, -⟩ := hc
      exact List.mem_append_left _ h
    · exact h

lemma applyCoRun_mem (idxs : List Nat) (cards : List Card) (pid : Int)
    (hlen : ∀ j ∈ idxs, j < cards.length) :
    ∀ j ∈ idxs, pid ∈ ((applyCoRun cards idxs pid).getD j default).clientPIDs := by
  induction idxs generalizing cards with
  | nil => intro j hj; cases hj
  | cons i rest ih =>
    intro j hj
    have hstep : applyCoRun cards (i :: rest) pid =
        applyCoRun (cards.set i
          { cards.getD i default with
            clientPIDs := (cards.getD i default).clientPIDs ++ [pid] }) rest pid := rfl
    rw [hstep]
    by_cases hr : j ∈ rest
    · exact ih _ (fun k hk => by
        rw [List.length_set]; exact hlen k (List.mem_cons_of_mem _ hk)) j hr
    · obtain rfl : j = i := (List.mem_cons.mp hj).resolve_right hr
      apply applyCoRun_mem_preserve
      rw [getD_set, if_pos ⟨rfl, hlen j (List.mem_cons_self _ _)⟩]
      exact List.mem_append_right _ (List.mem_singleton_self _)

/-! ## Claim C8 -/

/-- C8: a CoRun{card_indices} request is validated as a whole: the check
loop accepts exactly when every requested index is in range and names a
card reserved by the caller's uid; on the first failure communicate
replies with that error and returns Delete (the connection is closed and
no card gains the caller's pid — only the CoRunCards action touches
cards); on success communicate replies with the requested card records
and returns CoRunCards, whose application by the reactor appends the
caller's pid to every requested card's clientPIDs. -/
theorem C8_corun (client : Client) (st : ServerStatus) (gpus : List Nat) (nowSys : Int)
    (hu : 0 ≤ client.uid) :
    (coRunCheck st.cards client.uid gpus = none ↔
      ∀ idx ∈ gpus, idx < st.cards.length ∧
        (st.cards.getD idx default).reservedByUID = client.uid) ∧
    (∀ msg, coRunCheck st.cards client.uid gpus = some msg →
      communicate client st (some (Request.coRunReq gpus)) nowSys =
        ([Response.claimResp [] msg], Action.delete)) ∧
    (coRunCheck st.cards client.uid gpus = none →
      communicate client st (some (Request.coRunReq gpus)) nowSys =
        ([Response.claimResp (gpus.map fun c => st.cards.getD c default) ""],
          Action.coRunCards gpus) ∧
      ∀ idx ∈ gpus, client.pid ∈
        ((applyCoRun st.cards gpus client.pid).getD idx default).clientPIDs) := by
  refine ⟨coRunCheck_none_iff _ _ _, ?_, ?_⟩
  · intro msg hmsg
    unfold communicate
    rw [if_neg (not_lt.mpr hu)]
    dsimp only
    rw [hmsg]
  · intro hnone
    refine ⟨?_, applyCoRun_mem gpus st.cards client.pid
      (fun j hj => (((coRunCheck_none_iff _ _ _).mp hnone) j hj).1)⟩
    unfold communicate
    rw [if_neg (not_lt.mpr hu)]
    dsimp only
    rw [hnone]

/-- Witness for C8 at a concrete successful co-run: clW7 (uid 7, pid 9)
joins card7, which uid 7 already reserves, and its pid is appended. -/
theorem C8_witness :
    communicate clW7 { cards := [card7] } (some (Request.coRunReq [0])) 0 =
      ([Response.claimResp [card7] ""], Action.coRunCards [0]) ∧
    (9 : Int) ∈ ((applyCoRun [card7] [0] 9).getD 0 default).clientPIDs := by
  have h := (C8_corun clW7 { cards := [card7] } [0] 0 (by decide)).2.2 (by decide)
  exact ⟨h.1, h.2 0 (by simp)⟩

/-! ## Reactor invariant lemmas -/

lemma admissionLoop_total_sub (clients : List Client) (m : Bool) (now : Int) :
    ∀ (queue : List Job) (cards : List Card),
      (∀ j ∈ queue, ∃ c ∈ clients, c.pid = j.pid) →
      ∃ out, admissionLoop clients m now cards queue = some out ∧
        ∀ j ∈ out.2.1, j ∈ queue := by
  intro queue
  induction queue with
  | nil =>
    intro cards _
    exact ⟨(cards, [], []), rfl, by simp⟩
  | cons job rest ih =>
    intro cards hq
    obtain ⟨c, hc, hpid⟩ := hq job (List.mem_cons_self _ _)
    obtain ⟨y, hy⟩ := find?_eq_some_of_mem
      (l := clients) (p := fun c => c.pid == job.pid) ⟨c, hc, by simp [hpid]⟩
    have hrest : ∀ j ∈ rest, ∃ c ∈ clients, c.pid = j.pid :=
      fun j hj => hq j (List.mem_cons_of_mem _ hj)
    by_cases hm : m = true
    · obtain ⟨⟨cs, q, rs⟩, ho, hsub⟩ := ih cards hrest
      refine ⟨(cs, q, (job.pid, Response.claimResp [] maintenanceMsg) :: rs), ?_,
        fun j hj => List.mem_cons_of_mem _ (hsub j hj)⟩
      simp only [admissionLoop, hy, ho]
      rw [if_pos hm]
    · by_cases hcap : cards.countP (fun c => c.reservedByUID == job.uid) + job.numGPUs
          > gpuLimitPerUser
      · obtain ⟨⟨cs, q, rs⟩, ho, hsub⟩ := ih cards hrest
        refine ⟨(cs, q, (job.pid, Response.claimResp [] limitMsg) :: rs), ?_,
          fun j hj => List.mem_cons_of_mem _ (hsub j hj)⟩
        simp only [admissionLoop, hy, ho]
        rw [if_neg hm, if_pos hcap]
      · by_cases hfeas : job.numGPUs > (freeIdx cards).length
        · refine ⟨(cards, job :: rest, []), ?_, fun j hj => hj⟩
          simp only [admissionLoop, hy]
          rw [if_neg hm, if_neg hcap, if_pos hfeas]
        · obtain ⟨⟨cs, q, rs⟩, ho, hsub⟩ := ih
            (grantCards cards ((freeIdx cards).take job.numGPUs) job.uid job.pid now).1
            hrest
          refine ⟨(cs, q, (job.pid, Response.claimResp
              (grantCards cards ((freeIdx cards).take job.numGPUs) job.uid job.pid
                now).2 "") :: rs), ?_,
            fun j hj => List.mem_cons_of_mem _ (hsub j hj)⟩
          simp only [admissionLoop, hy, ho]
          rw [if_neg hm, if_neg hcap, if_neg hfeas]

lemma periodicUpdate_total_sub (env : Env) (now : Int) (clients : List Client)
    (st : ServerStatus) (h : ∀ j ∈ st.queue, ∃ c ∈ clients, c.pid = j.pid) :
    ∃ out, periodicUpdate env now clients st = some out ∧
      ∀ j ∈ out.1.queue, j ∈ st.queue := by
  obtain ⟨⟨cs, q, rs⟩, ho, hsub⟩ := admissionLoop_total_sub clients env.maintenanceFile
    now st.queue (st.cards.map (tickCard env now)) h
  exact ⟨({ cards := cs, queue := q, maintenance := env.maintenanceFile }, rs),
    by simp only [periodicUpdate, ho], hsub⟩

lemma communicate_enqueue_pid (client : Client) (st : ServerStatus)
    (req : Option Request) (nowSys : Int) (job : Job)
    (h : (communicate client st req nowSys).2 = Action.enqueueJob job) :
    job.pid = client.pid := by
  unfold communicate at h
  by_cases hu : client.uid < 0
  · rw [if_pos hu] at h
    simp at h
  · rw [if_neg hu] at h
    match req with
    | none => simp at h
    | some Request.statusReq => simp at h
    | some (Request.claimReq numGPUs wait) =>
      dsimp only at h
      by_cases hn : numGPUs > gpuLimitPerUser
      · rw [if_pos hn] at h
        simp at h
      · rw [if_neg hn] at h
        dsimp only at h
        injection h with h2
        rw [← h2]
    | some (Request.coRunReq gpus) =>
      dsimp only at h
      cases hcc : coRunCheck st.cards client.uid gpus with
      | none => rw [hcc] at h; simp at h
      | some msg => rw [hcc] at h; simp at h
    | some (Request.releaseReq gpus) =>
      dsimp only at h
      split at h <;> simp at h

lemma handleEvent_inv (env : Env) (now nowSys : Int)
    (s : DaemonState) (dl : List Nat) (log : List (Int × Response)) (ev : Event)
    (hInv : ∀ j ∈ s.status.queue, ∃ c ∈ s.clients, c.pid = j.pid) :
    ∃ acc, handleEvent env now nowSys (s, dl, log) ev = some acc ∧
      ∀ j ∈ acc.1.status.queue, ∃ c ∈ acc.1.clients, c.pid = j.pid := by
  cases ev with
  | accept c =>
    by_cases hn : s.clients.length > 100
    · exact ⟨(s, dl, log), by simp [handleEvent, hn], hInv⟩
    · refine ⟨({ s with clients := s.clients ++ [c] }, dl, log),
        by simp [handleEvent, hn], ?_⟩
      intro j hj
      obtain ⟨c0, hc0, hp⟩ := hInv j hj
      exact ⟨c0, List.mem_append_left _ hc0, hp⟩
  | tick =>
    obtain ⟨⟨st', rs⟩, ho, hsub⟩ := periodicUpdate_total_sub env now s.clients s.status hInv
    refine ⟨({ s with status := st' }, dl, log ++ rs), by simp [handleEvent, ho], ?_⟩
    intro j hj
    exact hInv j (hsub j hj)
  | clientMsg fd req =>
    cases hf : s.clients.find? (fun c => c.fd == fd) with
    | none => exact ⟨(s, dl, log), by simp [handleEvent, hf], hInv⟩
    | some client =>
      have hcm : client ∈ s.clients := List.mem_of_find?_eq_some hf
      cases ha : (communicate client s.status req nowSys).2 with
      | keep =>
        exact ⟨(s, dl, log ++ (communicate client s.status req nowSys).1.map
          fun r => (client.pid, r)), by simp [handleEvent, hf, ha], hInv⟩
      | delete =>
        exact ⟨(s, dl ++ [fd], log ++ (communicate client s.status req nowSys).1.map
          fun r => (client.pid, r)), by simp [handleEvent, hf, ha], hInv⟩
      | enqueueJob job =>
        have hjpid : job.pid = client.pid :=
          communicate_enqueue_pid client s.status req nowSys job ha
        have hInv1 : ∀ j ∈ ({ s.status with queue := s.status.queue ++ [job] }
            : ServerStatus).queue, ∃ c ∈ s.clients, c.pid = j.pid := by
          intro j hj
          rcases List.mem_append.mp hj with hj0 | hj1
          · exact hInv j hj0
          · obtain rfl : j = job := List.mem_singleton.mp hj1
            exact ⟨client, hcm, hjpid.symm⟩
        obtain ⟨⟨st', rs⟩, ho, hsub⟩ := periodicUpdate_total_sub env now s.clients
          { s.status with queue := s.status.queue ++ [job] } hInv1
        refine ⟨({ s with status := st' },
          dl, (log ++ (communicate client s.status req nowSys).1.map
            fun r => (client.pid, r)) ++ rs), by simp [handleEvent, hf, ha, ho], ?_⟩
        intro j hj
        exact hInv1 j (hsub j hj)
      | coRunCards idxs =>
        refine ⟨({ s with status :=
          { s.status with cards := applyCoRun s.status.cards idxs client.pid } },
          dl, log ++ (communicate client s.status req nowSys).1.map
            fun r => (client.pid, r)), by simp [handleEvent, hf, ha], ?_⟩
        intro j hj
        exact hInv j hj
      | releaseCards idxs =>
        obtain ⟨⟨st', rs⟩, ho, hsub⟩ := periodicUpdate_total_sub env now s.clients
          s.status hInv
        refine ⟨({ s with status :=
          { st' with cards := applyRelease st'.cards idxs client.pid now } },
          dl, (log ++ (communicate client s.status req nowSys).1.map
            fun r => (client.pid, r)) ++ rs), by simp [handleEvent, hf, ha, ho], ?_⟩
        intro j hj
        exact hInv j (hsub j hj)

lemma handleEvents_inv (env : Env) (now nowSys : Int) :
    ∀ (events : List Event) (s : DaemonState) (dl : List Nat)
      (log : List (Int × Response)),
      (∀ j ∈ s.status.queue, ∃ c ∈ s.clients, c.pid = j.pid) →
      ∃ acc, handleEvents env now nowSys (s, dl, log) events = some acc ∧
        ∀ j ∈ acc.1.status.queue, ∃ c ∈ acc.1.clients, c.pid = j.pid := by
  intro events
  induction events with
  | nil =>
    intro s dl log h
    exact ⟨(s, dl, log), rfl, h⟩
  | cons ev rest ih =>
    intro s dl log h
    obtain ⟨⟨s1, dl1, log1⟩, h1, hInv1⟩ := handleEvent_inv env now nowSys s dl log ev h
    obtain ⟨acc, h2, hInv2⟩ := ih s1 dl1 log1 hInv1
    refine ⟨acc, ?_, hInv2⟩
    simp only [handleEvents, h1]
    exact h2

lemma processDeletions_inv (now : Int) :
    ∀ (dl : List Nat) (clients : List Client) (st : ServerStatus),
      (∀ j ∈ st.queue, ∃ c ∈ clients, c.pid = j.pid) →
      ∀ j ∈ (processDeletions now clients st dl).2.queue,
        ∃ c ∈ (processDeletions now clients st dl).1, c.pid = j.pid := by
  intro dl
  induction dl with
  | nil =>
    intro clients st h
    exact h
  | cons fd rest ih =>
    intro clients st h
    cases hf : clients.find? (fun c => c.fd == fd) with
    | none =>
      simp only [processDeletions, hf]
      exact ih clients st h
    | some client =>
      simp only [processDeletions, hf]
      apply ih
      intro j hj
      have hjq := List.mem_of_mem_filter hj
      have hjne : j.pid ≠ client.pid := by
        have := (List.mem_filter.mp hj).2
        simpa using this
      obtain ⟨c, hc, hp⟩ := h j hjq
      refine ⟨c, ?_, hp⟩
      have hcne : c ≠ client := fun he => hjne (by rw [← hp, he])
      exact (List.mem_erase_of_ne hcne).mpr hc

/-! ## Claim C10 -/

/-- C10: the invariant that every queued Job's pid belongs to some
currently connected client is preserved by every full reactor iteration
(any sequence of accepts, ticks and client messages followed by the
deletion sweep): a claim is enqueued only with the enqueuing client's own
pid, and client deletion purges that pid's jobs before erasing the
client.  Consequently the iteration never hits the admission pass's
"Job without client" failure branch (the step function returns some). -/
theorem C10_queue_invariant (env : Env) (now nowSys : Int) (s : DaemonState)
    (events : List Event) (h : jobsHaveClients s) :
    ∃ out, reactorStep env now nowSys s events = some out ∧ jobsHaveClients out.1 := by
  obtain ⟨⟨s1, dl1, log1⟩, h1, hInv1⟩ := handleEvents_inv env now nowSys events s [] [] h
  refine ⟨({ clients := (processDeletions now s1.clients s1.status dl1).1,
             status := (processDeletions now s1.clients s1.status dl1).2 }, log1),
    ?_, ?_⟩
  · simp only [reactorStep, h1]
  · exact processDeletions_inv now dl1 s1.clients s1.status hInv1

/-- Witness for C10: a tick on a state with one connected client awaiting
its queued claim preserves the invariant and completes without the
Job-without-client failure. -/
theorem C10_witness :
    ∃ out, reactorStep (mkEnv 0 false) 1 2 sQ [Event.tick] = some out ∧
      jobsHaveClients out.1 :=
  C10_queue_invariant (mkEnv 0 false) 1 2 sQ [Event.tick] (by decide)

end GpuClaim
